import Mathlib

/-!
Shallow embedding of `aionanoleaf/digital_twin.py` (and what its claims need
of `aionanoleaf/effects.py`).

Conventions of the embedding:
* Python `int` is Lean `Int`; an `RGB` triple is `Int × Int × Int`.
* Python functions that may raise `ValueError`/`KeyError` return
  `Except String _`, the string being the error class/message.
* A Python `dict` keyed by panel id is an association list
  `List (Int × RGB)`; assignment keeps the position of an existing key and
  appends a fresh one, as CPython dicts do; lookup is by key equality.
* The HTTP transport is external to the repository: `sync` is modelled as
  returning the payload it hands to the client's write method, and
  `apply_temp` as a trace of the externally visible actions, parametrised
  by an oracle giving the outcome of each remote call.
-/

namespace Aionanoleaf

/-- RGB triple, as `RGB = Tuple[int, int, int]` in digital_twin.py. -/
abbrev RGB := Int × Int × Int

/-- Embedding of `_clamp` (digital_twin.py): clamp integer to `[lo, hi]`. -/
def _clamp (value : Int) (lo : Int := 0) (hi : Int := 255) : Int :=
  max lo (min hi value)

/-- Embedding of `_validate_rgb` (digital_twin.py): raise `ValueError` when a
component is outside `[0, 255]`, otherwise return the clamped triple.
The defensive `int(...)` parse cannot fail in the typed embedding. -/
def _validate_rgb (rgb : RGB) : Except String RGB :=
  let r := rgb.1; let g := rgb.2.1; let b := rgb.2.2
  if r < 0 ∨ r > 255 ∨ g < 0 ∨ g > 255 ∨ b < 0 ∨ b > 255 then
    .error "ValueError: rgb components must be in [0,255]"
  else
    .ok (_clamp r, _clamp g, _clamp b)

/-- ASCII whitespace as recognised by Python's `str.strip` and by
`int(s, base)`; the embedding covers the ASCII fragment (the source is only
ever given ASCII colour strings). -/
def isPySpace (c : Char) : Bool :=
  c = ' ' ∨ c = '\t' ∨ c = '\n' ∨ c = '\x0b' ∨ c = '\x0c' ∨ c = '\r'

/-- Hexadecimal digit test covering `0-9`, `a-f`, `A-F`. -/
def isHexDigit (c : Char) : Bool :=
  ('0' ≤ c ∧ c ≤ '9') ∨ ('a' ≤ c ∧ c ≤ 'f') ∨ ('A' ≤ c ∧ c ≤ 'F')

/-- Numeric value of a hexadecimal digit. -/
def hexVal (c : Char) : Int :=
  if '0' ≤ c ∧ c ≤ '9' then (c.toNat : Int) - ('0'.toNat : Int)
  else if 'a' ≤ c ∧ c ≤ 'f' then (c.toNat : Int) - ('a'.toNat : Int) + 10
  else (c.toNat : Int) - ('A'.toNat : Int) + 10

/-- Model of CPython's `int(t, 16)` restricted to two-character strings,
which is the only way `_hex_to_rgb` invokes it (on slices of a six-character
string). Besides two hex digits, CPython accepts a single hex digit
preceded by a sign or surrounded by whitespace; underscores and a leading
`0x` marker need at least three characters and so never parse here. -/
def pyInt16Pair (c₁ c₂ : Char) : Except String Int :=
  if isHexDigit c₁ ∧ isHexDigit c₂ then .ok (16 * hexVal c₁ + hexVal c₂)
  else if (c₁ = '+' ∨ isPySpace c₁) ∧ isHexDigit c₂ then .ok (hexVal c₂)
  else if c₁ = '-' ∧ isHexDigit c₂ then .ok (-(hexVal c₂))
  else if isHexDigit c₁ ∧ isPySpace c₂ then .ok (hexVal c₁)
  else .error "ValueError: invalid literal for int() with base 16"

/-- Python `str.strip()` on the ASCII fragment: drop whitespace at both ends. -/
def pyStrip (cs : List Char) : List Char :=
  ((cs.dropWhile isPySpace).reverse.dropWhile isPySpace).reverse

/-- Drop one leading `#`, as `if s.startswith("#"): s = s[1:]` does. -/
def dropHash (cs : List Char) : List Char :=
  match cs with
  | c :: rest => if c = '#' then rest else c :: rest
  | [] => []

/-- Embedding of `_hex_to_rgb` (digital_twin.py): raise on the empty string
(`not s`), strip surrounding whitespace, drop one leading `#`, require
exactly six remaining characters, and parse the three two-character slices
with `int(·, 16)`. -/
def _hex_to_rgb (s : String) : Except String RGB :=
  if s.toList.isEmpty then .error "ValueError: hex string required"
  else
    match dropHash (pyStrip s.toList) with
    | [a, b, c, d, e, f] => do
        let r ← pyInt16Pair a b
        let g ← pyInt16Pair c d
        let bl ← pyInt16Pair e f
        pure (r, g, bl)
    | _ => .error "ValueError: hex must be #RRGGBB"

/-- Round-half-to-even of `n / 100`, in exact integer arithmetic. This models
`round(r * (brightness / 100.0))` in `_apply_brightness`; the float
double-rounding of CPython is ignored in favour of the exact rational value. -/
def roundHalfEvenDiv100 (n : Int) : Int :=
  let f := Int.fdiv n 100
  let rem := n - 100 * f
  if 2 * rem < 100 then f
  else if 100 < 2 * rem then f + 1
  else if f % 2 = 0 then f else f + 1

/-- Embedding of `_apply_brightness` (digital_twin.py): `None` is the
identity, out-of-range brightness raises `ValueError`, `100` is the identity,
and otherwise each channel is scaled by `brightness / 100` and clamped. -/
def _apply_brightness (rgb : RGB) (brightness : Option Int) : Except String RGB :=
  match brightness with
  | none => .ok rgb
  | some b =>
      if ¬ (0 ≤ b ∧ b ≤ 100) then
        .error "ValueError: brightness must be between 0 and 100"
      else if b = 100 then .ok rgb
      else
        .ok (_clamp (roundHalfEvenDiv100 (rgb.1 * b)),
             _clamp (roundHalfEvenDiv100 (rgb.2.1 * b)),
             _clamp (roundHalfEvenDiv100 (rgb.2.2 * b)))

/-- CPython-dict lookup on the association-list model. -/
def dictGet (d : List (Int × RGB)) (k : Int) : Option RGB :=
  match d with
  | [] => none
  | (k', v') :: rest => if k' = k then some v' else dictGet rest k

/-- CPython-dict assignment on the association-list model: an existing key is
updated in place, a fresh key is appended. -/
def dictInsert (d : List (Int × RGB)) (k : Int) (v : RGB) : List (Int × RGB) :=
  match d with
  | [] => [(k, v)]
  | (k', v') :: rest => if k' = k then (k, v) :: rest else (k', v') :: dictInsert rest k v

/-- The per-panel record loop of `_build_anim`: for each id look the colour up
(`KeyError` when absent), apply the brightness overlay, and emit the
seven-field record `[id, 1, R, G, B, 0, t]`. -/
def buildRecords (ids : List Int) (colours : List (Int × RGB))
    (brightness : Option Int) (t : Int) : Except String (List Int) :=
  match ids with
  | [] => .ok []
  | pid :: rest =>
      match dictGet colours pid with
      | none => .error "KeyError"
      | some c => do
          let rgb ← _apply_brightness c brightness
          let tail ← buildRecords rest colours brightness t
          pure ([pid, 1, rgb.1, rgb.2.1, rgb.2.2, 0, t] ++ tail)

/-- Embedding of `_build_anim` (digital_twin.py): the animData string
`N id 1 R G B 0 T ...`, joined with single spaces, with `T = max 0 transition`. -/
def _build_anim (ids : List Int) (colours : List (Int × RGB))
    (transition : Int := 10) (brightness : Option Int := none) :
    Except String String := do
  let t := max 0 transition
  let records ← buildRecords ids colours brightness t
  pure (String.intercalate " " (((ids.length : Int) :: records).map toString))

/-- Embedding of the `_Panel` dataclass (digital_twin.py). -/
structure _Panel where
  panel_id : Int
  x : Int
  y : Int
deriving DecidableEq, Repr

/-- The sort key comparison used in `DigitalTwin.__init__`:
`sorted(panels, key=lambda p: (p.x, p.y, p.panel_id))`, i.e. lexicographic
order on the `(x, y, panel_id)` tuple. -/
def keyLeP (p q : _Panel) : Prop :=
  p.x < q.x ∨ (p.x = q.x ∧ (p.y < q.y ∨ (p.y = q.y ∧ p.panel_id ≤ q.panel_id)))

instance : DecidableRel keyLeP := fun p q => by
  unfold keyLeP; infer_instance

instance : IsTotal _Panel keyLeP :=
  ⟨fun p q => by unfold keyLeP; omega⟩

instance : IsTrans _Panel keyLeP :=
  ⟨fun p q r => by unfold keyLeP; omega⟩

/-- The sorted panel list computed in `DigitalTwin.__init__`. Python's
`sorted` is a stable sort by the key tuple; since the key includes the id and
panels tied on all of `(x, y, panel_id)` are equal records, any sorting
algorithm produces the same observable list, here insertion sort. -/
def panelsSorted (panels : List _Panel) : List _Panel :=
  List.insertionSort keyLeP panels

/-- Embedding of the `DigitalTwin` state: the id tuple `_ids_ordered` and the
colour dict `colors`. The Python `_ids_set` is membership in `ids_ordered`
(same set of elements), and `_nl` is the external client, not state. -/
structure DigitalTwin where
  ids_ordered : List Int
  colors : List (Int × RGB)
deriving DecidableEq, Repr

/-- Embedding of `DigitalTwin.__init__`: sort the panels by `(x, y, id)`,
record the id order, and initialise every panel's colour to black. -/
def DigitalTwin.init (panels : List _Panel) : DigitalTwin :=
  let ids := (panelsSorted panels).map _Panel.panel_id
  { ids_ordered := ids
    colors := ids.foldl (fun d pid => dictInsert d pid (0, 0, 0)) [] }

/-- Embedding of `DigitalTwin.get_color`: dict lookup, `KeyError` if the id
is not a key. -/
def DigitalTwin.get_color (tw : DigitalTwin) (panel_id : Int) : Except String RGB :=
  match dictGet tw.colors panel_id with
  | some c => .ok c
  | none => .error "KeyError"

/-- Embedding of `DigitalTwin.set_color`: unknown ids raise `ValueError`
before any mutation; otherwise the validated colour is assigned. An
exceptional return leaves the twin unchanged, which the embedding renders by
returning only the error. -/
def DigitalTwin.set_color (tw : DigitalTwin) (panel_id : Int) (rgb : RGB) :
    Except String DigitalTwin :=
  if panel_id ∈ tw.ids_ordered then
    match _validate_rgb rgb with
    | .ok v => .ok { tw with colors := dictInsert tw.colors panel_id v }
    | .error e => .error e
  else .error ("ValueError: panel id unknown: " ++ toString panel_id)

/-- Embedding of `DigitalTwin.set_hex`: parse the hex string, then delegate
to `set_color`. -/
def DigitalTwin.set_hex (tw : DigitalTwin) (panel_id : Int) (hex_colour : String) :
    Except String DigitalTwin :=
  match _hex_to_rgb hex_colour with
  | .ok rgb => tw.set_color panel_id rgb
  | .error e => .error e

/-- Embedding of `DigitalTwin.set_all_colors`: validate once, then assign the
colour to every id in `_ids_ordered`. -/
def DigitalTwin.set_all_colors (tw : DigitalTwin) (rgb : RGB) :
    Except String DigitalTwin :=
  match _validate_rgb rgb with
  | .ok v => .ok { tw with
      colors := tw.ids_ordered.foldl (fun d pid => dictInsert d pid v) tw.colors }
  | .error e => .error e

/-- The `/effects` write payload assembled by `DigitalTwin.sync`; `palette`
is always the empty list in the source. -/
structure Payload where
  command : String
  version : String
  animType : String
  animData : String
  palette : List String
  loop : Bool
deriving DecidableEq, Repr

/-- The id selection of `DigitalTwin.sync`: all ids in order when `only` is
absent; otherwise `ValueError` when `only` holds an unknown id, else the
ordered ids filtered to membership in `only` (Python materialises `only` as a
set, so only membership matters). -/
def DigitalTwin.syncIds (tw : DigitalTwin) (only : Option (List Int)) :
    Except String (List Int) :=
  match only with
  | none => .ok tw.ids_ordered
  | some o =>
      if o.any (fun x => ¬ x ∈ tw.ids_ordered) then
        .error "ValueError: unknown panel ids"
      else .ok (tw.ids_ordered.filter (fun pid => pid ∈ o))

/-- Embedding of `DigitalTwin.sync` up to the device write: validate the
command, select and order the ids, build the animData string, and return the
payload handed to the client's `write_effect`. The dispatch over
`write_effect`/`effects_write`/`display_effect` and the `RuntimeError` when
none exists concern the external client object and are outside the state
model; an `.error` return means no device write is issued. -/
def DigitalTwin.sync (tw : DigitalTwin) (transition_ms : Int := 10)
    (command : String := "display") (only : Option (List Int) := none)
    (brightness : Option Int := none) : Except String Payload :=
  if command ≠ "display" ∧ command ≠ "displayTemp" then
    .error "ValueError: command must be display or displayTemp"
  else do
    let ids ← tw.syncIds only
    let anim ← _build_anim ids tw.colors transition_ms brightness
    pure { command := command, version := "1.0", animType := "static",
           animData := anim, palette := [], loop := false }

/-- Externally visible actions of `DigitalTwin.apply_temp`, in order:
the `GET /effects/select` read, the effect write of `sync`, the sleep, and
the restoring `select_effect`. -/
inductive Action where
  | getSelected : Action
  | writeEffect : Payload → Action
  | sleep : Int → Action
  | selectEffect : String → Action
deriving DecidableEq, Repr

/-- Outcomes of the remote calls made during `apply_temp`, supplied by the
environment: the result of `EffectsClient.get_selected_effect` (an `.error`
is any raised exception), whether the device write inside `sync` succeeds,
and whether the restoring `select_effect` succeeds (the code swallows its
failure, so it influences nothing). -/
structure Oracle where
  getSelectedResult : Except String String
  writeOk : Bool
  selectOk : Bool

/-- Embedding of `DigitalTwin.apply_temp` as the trace of externally visible
actions plus the call's outcome. `EffectsClient(self._nl)` construction is
assumed to succeed (otherwise the call raises before any action). Following
the source: the selected effect is read first with any exception swallowed
(`prev = None`); the `try` block syncs with command `displayTemp` and sleeps
`max 0 duration_ms`; the `finally` block attempts `select_effect(prev)`
exactly when `prev` is truthy — a non-empty string — and swallows its
failure; an exception from the `try` block propagates. -/
def DigitalTwin.apply_temp (tw : DigitalTwin) (transition_ms : Int := 60)
    (duration_ms : Int := 2000) (only : Option (List Int) := none)
    (brightness : Option Int := none) (ω : Oracle := ⟨.error "", true, true⟩) :
    List Action × Except String Unit :=
  let prev : Option String :=
    match ω.getSelectedResult with
    | .ok name => some name
    | .error _ => none
  let body : List Action × Except String Unit :=
    match tw.sync transition_ms "displayTemp" only brightness with
    | .error e => ([], .error e)
    | .ok payload =>
        if ω.writeOk then
          ([Action.writeEffect payload, Action.sleep (max 0 duration_ms)], .ok ())
        else ([Action.writeEffect payload], .error "write failed")
  let restore : List Action :=
    match prev with
    | some name => if name ≠ "" then [Action.selectEffect name] else []
    | none => []
  (Action.getSelected :: body.1 ++ restore, body.2)

/-- Claim-side description of the animData layout, written from the spec's
words: the panel count followed, for each panel in order, by the seven
fields `(id, 1, R, G, B, 0, transition)`, space-separated decimal integers,
where `(R, G, B)` is the panel's colour-table entry. Used only to be
compared against `_build_anim`. -/
def animSpecString (ids : List Int) (f : Int → RGB) (t : Int) : String :=
  String.intercalate " " (toString (ids.length : Int) ::
    ids.flatMap (fun i =>
      [toString i, toString (1 : Int), toString (f i).1, toString (f i).2.1,
       toString (f i).2.2, toString (0 : Int), toString t]))

/-- All three channels of an RGB triple lie in `[0, 255]`. -/
def chOk (c : RGB) : Prop :=
  0 ≤ c.1 ∧ c.1 ≤ 255 ∧ 0 ≤ c.2.1 ∧ c.2.1 ≤ 255 ∧ 0 ≤ c.2.2 ∧ c.2.2 ≤ 255

/-- The colour-table invariant of the twin: the dict's key set is exactly
the id set fixed at construction, and every stored channel is in `[0, 255]`. -/
def ColorsInv (tw : DigitalTwin) : Prop :=
  (∀ k, (dictGet tw.colors k).isSome ↔ k ∈ tw.ids_ordered) ∧
  (∀ k c, dictGet tw.colors k = some c → chOk c)

/-! Helper lemmas about the dict model. -/

theorem dictGet_dictInsert_self (d : List (Int × RGB)) (k : Int) (v : RGB) :
    dictGet (dictInsert d k v) k = some v := by
  induction d with
  | nil => simp [dictInsert, dictGet]
  | cons hd tl ih =>
      obtain ⟨k', v'⟩ := hd
      by_cases h : k' = k
      · subst h; simp [dictInsert, dictGet]
      · simp [dictInsert, dictGet, h, ih]

theorem dictGet_dictInsert_ne (d : List (Int × RGB)) (k k' : Int) (v : RGB)
    (h : k' ≠ k) : dictGet (dictInsert d k v) k' = dictGet d k' := by
  induction d with
  | nil => simp [dictInsert, dictGet, Ne.symm h]
  | cons hd tl ih =>
      obtain ⟨a, b⟩ := hd
      by_cases ha : a = k
      · subst ha; simp [dictInsert, dictGet, Ne.symm h]
      · simp [dictInsert, dictGet, ha, ih]

theorem isSome_dictGet_dictInsert (d : List (Int × RGB)) (k k' : Int) (v : RGB) :
    (dictGet (dictInsert d k v) k').isSome ↔ k' = k ∨ (dictGet d k').isSome := by
  by_cases h : k' = k
  · subst h; simp [dictGet_dictInsert_self]
  · simp [dictGet_dictInsert_ne d k k' v h, h]

theorem dictGet_dictInsert_cases (d : List (Int × RGB)) (k k' : Int) (v c : RGB)
    (h : dictGet (dictInsert d k v) k' = some c) : c = v ∨ dictGet d k' = some c := by
  by_cases hk : k' = k
  · subst hk; rw [dictGet_dictInsert_self] at h; exact Or.inl (Option.some_injective _ h).symm
  · rw [dictGet_dictInsert_ne d k k' v hk] at h; exact Or.inr h

theorem dictGet_foldl_const (ids : List Int) (d : List (Int × RGB)) (v : RGB)
    (k : Int) :
    dictGet (ids.foldl (fun acc pid => dictInsert acc pid v) d) k =
      if k ∈ ids then some v else dictGet d k := by
  induction ids generalizing d with
  | nil => simp
  | cons a tl ih =>
      simp only [List.foldl_cons, ih, List.mem_cons]
      by_cases hk : k ∈ tl
      · simp [hk]
      · by_cases ha : k = a
        · subst ha; simp [hk, dictGet_dictInsert_self]
        · simp [hk, ha, dictGet_dictInsert_ne _ _ _ _ ha]

/-! Helper lemmas about validation, the encoder loop, and construction. -/

theorem validate_rgb_of_chOk (rgb : RGB) (h : chOk rgb) :
    _validate_rgb rgb = .ok rgb := by
  obtain ⟨r, g, b⟩ := rgb
  unfold chOk at h
  unfold _validate_rgb _clamp
  rw [if_neg (by simp only at h ⊢; omega)]
  simp only [Except.ok.injEq, Prod.mk.injEq]
  simp only at h
  omega

theorem validate_rgb_ok_inv (rgb v : RGB) (h : _validate_rgb rgb = .ok v) :
    v = rgb ∧ chOk v := by
  obtain ⟨r, g, b⟩ := rgb
  obtain ⟨vr, vg, vb⟩ := v
  unfold _validate_rgb _clamp at h
  by_cases hc : r < 0 ∨ r > 255 ∨ g < 0 ∨ g > 255 ∨ b < 0 ∨ b > 255
  · rw [if_pos hc] at h; exact absurd h (by simp)
  · rw [if_neg hc] at h
    simp only [Except.ok.injEq, Prod.mk.injEq] at h
    unfold chOk
    simp only [Prod.mk.injEq]
    omega

theorem buildRecords_ok (ids : List Int) (colours : List (Int × RGB)) (t : Int)
    (f : Int → RGB) (hf : ∀ i ∈ ids, dictGet colours i = some (f i)) :
    buildRecords ids colours none t =
      .ok (ids.flatMap fun i => [i, 1, (f i).1, (f i).2.1, (f i).2.2, 0, t]) := by
  induction ids with
  | nil => rfl
  | cons a tl ih =>
      have ha := hf a (by simp)
      have ih' := ih (fun i hi => hf i (by simp [hi]))
      simp [buildRecords, ha, _apply_brightness, ih', List.flatMap_cons,
        Bind.bind, Except.bind, Pure.pure, Except.pure]

theorem init_ids_eq (panels : List _Panel) :
    (DigitalTwin.init panels).ids_ordered = (panelsSorted panels).map _Panel.panel_id :=
  rfl

theorem dictGet_init (panels : List _Panel) (k : Int) :
    dictGet (DigitalTwin.init panels).colors k =
      if k ∈ (DigitalTwin.init panels).ids_ordered then some (0, 0, 0) else none := by
  show dictGet (List.foldl _ [] _) k = _
  rw [dictGet_foldl_const]
  rfl

theorem syncIds_some_unknown (tw : DigitalTwin) (o : List Int)
    (h : ∃ x ∈ o, ¬ x ∈ tw.ids_ordered) :
    tw.syncIds (some o) = .error "ValueError: unknown panel ids" := by
  have hany : (o.any fun x => decide (¬ x ∈ tw.ids_ordered)) = true := by
    rw [List.any_eq_true]
    obtain ⟨x, hx, hnx⟩ := h
    exact ⟨x, hx, by simpa using hnx⟩
  simp only [DigitalTwin.syncIds, hany, if_true]

theorem syncIds_some_known (tw : DigitalTwin) (o : List Int)
    (h : ∀ x ∈ o, x ∈ tw.ids_ordered) :
    tw.syncIds (some o) = .ok (tw.ids_ordered.filter (fun pid => pid ∈ o)) := by
  have hany : (o.any fun x => decide (¬ x ∈ tw.ids_ordered)) = false := by
    rw [List.any_eq_false]
    intro x hx
    simpa using h x hx
  simp only [DigitalTwin.syncIds, hany, Bool.false_eq_true, if_false]

theorem sync_ok_command (tw : DigitalTwin) (t : Int) (cmd : String)
    (only : Option (List Int)) (b : Option Int) (p : Payload)
    (h : tw.sync t cmd only b = .ok p) : p.command = cmd := by
  unfold DigitalTwin.sync at h
  by_cases hc : cmd ≠ "display" ∧ cmd ≠ "displayTemp"
  · rw [if_pos hc] at h; exact absurd h (by simp)
  · rw [if_neg hc] at h
    cases hids : tw.syncIds only with
    | error e => rw [hids] at h; exact absurd h (by simp [Bind.bind, Except.bind])
    | ok ids =>
        rw [hids] at h
        simp only [Bind.bind, Except.bind] at h
        cases ha : _build_anim ids tw.colors t b with
        | error e =>
            rw [ha] at h
            exact absurd h (by simp)
        | ok anim =>
            rw [ha] at h
            simp only [Pure.pure, Except.pure, Except.ok.injEq] at h
            rw [← h]

theorem apply_temp_eq (tw : DigitalTwin) (t d : Int) (only : Option (List Int))
    (b : Option Int) (g : Except String String) (w sel : Bool) :
    tw.apply_temp t d only b ⟨g, w, sel⟩ =
      (Action.getSelected ::
        (match tw.sync t "displayTemp" only b with
         | .error _ => []
         | .ok pl =>
            if w then [Action.writeEffect pl, Action.sleep (max 0 d)]
            else [Action.writeEffect pl]) ++
        (match g with
         | .ok name => if name ≠ "" then [Action.selectEffect name] else []
         | .error _ => []),
       match tw.sync t "displayTemp" only b with
       | .error e => .error e
       | .ok _ => if w then .ok () else .error "write failed") := by
  simp only [DigitalTwin.apply_temp]
  cases g <;> cases hs : tw.sync t "displayTemp" only b <;> cases w <;> simp

/-! Claim theorems. -/

/-- C1: for every list of panel ids and every colour table defined on them
(given by the lookup function `f`), `_build_anim` returns the
space-separated decimal integer string consisting of the panel count
followed, for each panel in order, by exactly the seven fields
`(id, 1, R, G, B, 0, transition)`; stated for the default brightness
overlay (`None`, the identity) and a non-negative transition, where the
final field equals the given transition. -/
theorem build_anim_record_layout (ids : List Int) (colours : List (Int × RGB))
    (f : Int → RGB) (t : Int) (ht : 0 ≤ t)
    (hf : ∀ i ∈ ids, dictGet colours i = some (f i)) :
    _build_anim ids colours t none = .ok (animSpecString ids f t) := by
  unfold _build_anim animSpecString
  rw [max_eq_right ht]
  simp only [buildRecords_ok ids colours t f hf, Bind.bind, Except.bind,
    Pure.pure, Except.pure, Except.ok.injEq]
  congr 1
  simp [List.map_flatMap]

/-- C1 witness: a concrete two-panel table evaluates to the stated layout. -/
theorem build_anim_record_layout_witness :
    _build_anim [10, 20] [(10, (255, 0, 0)), (20, (1, 2, 3))] 10 none =
      .ok (animSpecString [10, 20]
        (fun i => if i = 10 then (255, 0, 0) else (1, 2, 3)) 10) :=
  build_anim_record_layout [10, 20] [(10, (255, 0, 0)), (20, (1, 2, 3))]
    (fun i => if i = 10 then (255, 0, 0) else (1, 2, 3)) 10 (by decide)
    (by decide)

/-- C5: immediately after construction, every discovered panel's colour is
black: `get_color` answers `(0, 0, 0)` for each discovered panel. -/
theorem init_colors_black (panels : List _Panel) (p : _Panel)
    (hp : p ∈ panels) :
    (DigitalTwin.init panels).get_color p.panel_id = .ok (0, 0, 0) := by
  have hmem : p.panel_id ∈ (DigitalTwin.init panels).ids_ordered := by
    rw [init_ids_eq]
    exact List.mem_map_of_mem _
      ((List.perm_insertionSort keyLeP panels).mem_iff.mpr hp)
  unfold DigitalTwin.get_color
  rw [dictGet_init, if_pos hmem]

/-- C5 witness: the single-panel twin starts black. -/
theorem init_colors_black_witness :
    (DigitalTwin.init [⟨7, 0, 0⟩]).get_color 7 = .ok (0, 0, 0) :=
  init_colors_black [⟨7, 0, 0⟩] ⟨7, 0, 0⟩ (by decide)

/-- C7: the wire encoder is deterministic — two calls to `_build_anim` with
equal id sequences, extensionally equal colour tables (CPython dict equality
ignores insertion order), and equal transition and brightness arguments
return identical results. -/
theorem build_anim_deterministic (ids₁ ids₂ : List Int)
    (col₁ col₂ : List (Int × RGB)) (t₁ t₂ : Int) (b₁ b₂ : Option Int)
    (hids : ids₁ = ids₂) (hcol : ∀ k, dictGet col₁ k = dictGet col₂ k)
    (ht : t₁ = t₂) (hb : b₁ = b₂) :
    _build_anim ids₁ col₁ t₁ b₁ = _build_anim ids₂ col₂ t₂ b₂ := by
  subst hids ht hb
  unfold _build_anim
  have hrec : ∀ t, buildRecords ids₁ col₁ b₁ t = buildRecords ids₁ col₂ b₁ t := by
    intro t
    induction ids₁ with
    | nil => rfl
    | cons a tl ih => simp only [buildRecords, hcol a, ih]
  simp only [hrec]

/-- C7 witness: two differently-ordered but extensionally equal colour
tables produce the same string. -/
theorem build_anim_deterministic_witness :
    _build_anim [1, 2] [(1, (4, 5, 6)), (2, (7, 8, 9))] 10 none =
      _build_anim [1, 2] [(2, (7, 8, 9)), (1, (4, 5, 6))] 10 none :=
  build_anim_deterministic [1, 2] [1, 2] [(1, (4, 5, 6)), (2, (7, 8, 9))]
    [(2, (7, 8, 9)), (1, (4, 5, 6))] 10 10 none none rfl
    (fun k => by
      by_cases h1 : (1 : Int) = k <;> by_cases h2 : (2 : Int) = k <;>
        simp [dictGet, h1, h2]
      omega)
    rfl rfl

/-- C10: the brightness overlay is the identity at `None` and at `100`, and
raises `ValueError` for every brightness outside `[0, 100]`. -/
theorem apply_brightness_overlay (rgb : RGB) :
    _apply_brightness rgb none = .ok rgb ∧
    _apply_brightness rgb (some 100) = .ok rgb ∧
    ∀ b : Int, (b < 0 ∨ 100 < b) →
      _apply_brightness rgb (some b) =
        .error "ValueError: brightness must be between 0 and 100" := by
  refine ⟨rfl, by norm_num [_apply_brightness], fun b hb => ?_⟩
  simp only [_apply_brightness]
  rw [if_pos (by omega)]

/-- C10 witness: identities at `None` and `100`, error at `101`. -/
theorem apply_brightness_overlay_witness :
    _apply_brightness (1, 2, 3) none = .ok (1, 2, 3) ∧
    _apply_brightness (1, 2, 3) (some 100) = .ok (1, 2, 3) ∧
    _apply_brightness (1, 2, 3) (some 101) =
      .error "ValueError: brightness must be between 0 and 100" :=
  ⟨(apply_brightness_overlay (1, 2, 3)).1,
   (apply_brightness_overlay (1, 2, 3)).2.1,
   (apply_brightness_overlay (1, 2, 3)).2.2 101 (by decide)⟩

/-- C2: panel ordering in any rendered animation string is deterministic —
the ids sent by `sync` (with or without `only`) are the panel ids of a
sublist of the construction-time panel list sorted by `(x, y, id)`
lexicographically — and this order is fixed once constructed: no mutator
changes `ids_ordered` (and `sync`/`apply_temp` do not touch the twin state
at all in the embedding). -/
theorem sync_panel_order (panels : List _Panel) :
    (∃ ps : List _Panel, ps.Perm panels ∧ ps.Pairwise keyLeP ∧
        (DigitalTwin.init panels).ids_ordered = ps.map _Panel.panel_id ∧
        ∀ only ids, (DigitalTwin.init panels).syncIds only = .ok ids →
          ∃ qs : List _Panel, qs.Sublist ps ∧ qs.Pairwise keyLeP ∧
            ids = qs.map _Panel.panel_id) ∧
    (∀ (tw : DigitalTwin) (pid : Int) (rgb : RGB) (tw' : DigitalTwin),
        tw.set_color pid rgb = .ok tw' → tw'.ids_ordered = tw.ids_ordered) ∧
    (∀ (tw : DigitalTwin) (pid : Int) (s : String) (tw' : DigitalTwin),
        tw.set_hex pid s = .ok tw' → tw'.ids_ordered = tw.ids_ordered) ∧
    (∀ (tw : DigitalTwin) (rgb : RGB) (tw' : DigitalTwin),
        tw.set_all_colors rgb = .ok tw' → tw'.ids_ordered = tw.ids_ordered) := by
  have hsc : ∀ (tw : DigitalTwin) (pid : Int) (rgb : RGB) (tw' : DigitalTwin),
      tw.set_color pid rgb = .ok tw' → tw'.ids_ordered = tw.ids_ordered := by
    intro tw pid rgb tw' h
    unfold DigitalTwin.set_color at h
    by_cases hmem : pid ∈ tw.ids_ordered
    · rw [if_pos hmem] at h
      cases hv : _validate_rgb rgb with
      | ok v =>
          rw [hv] at h
          simp only [Except.ok.injEq] at h
          subst h; rfl
      | error e => rw [hv] at h; exact absurd h (by simp)
    · rw [if_neg hmem] at h; exact absurd h (by simp)
  refine ⟨⟨panelsSorted panels, List.perm_insertionSort keyLeP panels,
      List.sorted_insertionSort keyLeP panels, rfl, ?_⟩, hsc, ?_, ?_⟩
  · intro only ids h
    cases only with
    | none =>
        refine ⟨panelsSorted panels, List.Sublist.refl _,
          List.sorted_insertionSort keyLeP panels, ?_⟩
        have : (DigitalTwin.init panels).ids_ordered = ids := by
          simpa [DigitalTwin.syncIds] using h
        rw [← this, init_ids_eq]
    | some o =>
        simp only [DigitalTwin.syncIds] at h
        cases hany : o.any (fun x => ¬ x ∈ (DigitalTwin.init panels).ids_ordered) with
        | true => rw [hany] at h; exact absurd h (by simp)
        | false =>
            rw [hany] at h
            simp only [Bool.false_eq_true, if_false, Except.ok.injEq] at h
            refine ⟨(panelsSorted panels).filter (fun q => q.panel_id ∈ o),
              List.filter_sublist _,
              List.Pairwise.sublist (List.filter_sublist _)
                (List.sorted_insertionSort keyLeP panels), ?_⟩
            rw [← h, init_ids_eq, List.filter_map]
            rfl
  · intro tw pid s tw' h
    unfold DigitalTwin.set_hex at h
    cases hx : _hex_to_rgb s with
    | ok rgb => rw [hx] at h; exact hsc tw pid rgb tw' h
    | error e => rw [hx] at h; exact absurd h (by simp)
  · intro tw rgb tw' h
    unfold DigitalTwin.set_all_colors at h
    cases hv : _validate_rgb rgb with
    | ok v =>
        rw [hv] at h
        simp only [Except.ok.injEq] at h
        subst h; rfl
    | error e => rw [hv] at h; exact absurd h (by simp)

/-- C2 witness: a concrete `set_color` on the twin of a two-panel layout
leaves the construction-time id order `[1, 2]` unchanged. -/
theorem sync_panel_order_witness :
    (⟨[1, 2], [(1, (5, 5, 5)), (2, (0, 0, 0))]⟩ : DigitalTwin).ids_ordered =
      (DigitalTwin.init [⟨2, 1, 0⟩, ⟨1, 0, 0⟩]).ids_ordered :=
  (sync_panel_order [⟨2, 1, 0⟩, ⟨1, 0, 0⟩]).2.1
    (DigitalTwin.init [⟨2, 1, 0⟩, ⟨1, 0, 0⟩]) 1 (5, 5, 5)
    ⟨[1, 2], [(1, (5, 5, 5)), (2, (0, 0, 0))]⟩ rfl

/-- C4: construction establishes, and every mutator preserves, the
invariant that the colour map's key set equals the id set fixed at
construction and every stored channel lies in `[0, 255]`; `sync` and
`apply_temp` never touch the twin state (they are state-free in the
embedding, matching the source, which only reads `self.colors`). -/
theorem twin_colors_invariant (panels : List _Panel) :
    ColorsInv (DigitalTwin.init panels) ∧
    (∀ (tw : DigitalTwin) (pid : Int) (rgb : RGB) (tw' : DigitalTwin),
        ColorsInv tw → tw.set_color pid rgb = .ok tw' →
        ColorsInv tw' ∧ tw'.ids_ordered = tw.ids_ordered) ∧
    (∀ (tw : DigitalTwin) (pid : Int) (s : String) (tw' : DigitalTwin),
        ColorsInv tw → tw.set_hex pid s = .ok tw' →
        ColorsInv tw' ∧ tw'.ids_ordered = tw.ids_ordered) ∧
    (∀ (tw : DigitalTwin) (rgb : RGB) (tw' : DigitalTwin),
        ColorsInv tw → tw.set_all_colors rgb = .ok tw' →
        ColorsInv tw' ∧ tw'.ids_ordered = tw.ids_ordered) := by
  have hsc : ∀ (tw : DigitalTwin) (pid : Int) (rgb : RGB) (tw' : DigitalTwin),
      ColorsInv tw → tw.set_color pid rgb = .ok tw' →
      ColorsInv tw' ∧ tw'.ids_ordered = tw.ids_ordered := by
    intro tw pid rgb tw' hinv h
    unfold DigitalTwin.set_color at h
    by_cases hmem : pid ∈ tw.ids_ordered
    · rw [if_pos hmem] at h
      cases hv : _validate_rgb rgb with
      | ok v =>
          rw [hv] at h
          simp only [Except.ok.injEq] at h
          subst h
          obtain ⟨hkeys, hvals⟩ := hinv
          refine ⟨⟨fun k => ?_, fun k c hc => ?_⟩, rfl⟩
          · show (dictGet (dictInsert tw.colors pid v) k).isSome ↔ _
            rw [isSome_dictGet_dictInsert, hkeys k]
            constructor
            · rintro (hk | hk)
              · rwa [hk]
              · exact hk
            · exact Or.inr
          · rcases dictGet_dictInsert_cases tw.colors pid k v c hc with hcv | hold
            · subst hcv; exact (validate_rgb_ok_inv rgb c hv).2
            · exact hvals k c hold
      | error e => rw [hv] at h; exact absurd h (by simp)
    · rw [if_neg hmem] at h; exact absurd h (by simp)
  refine ⟨?_, hsc, ?_, ?_⟩
  · constructor
    · intro k
      rw [dictGet_init]
      by_cases hk : k ∈ (DigitalTwin.init panels).ids_ordered <;> simp [hk]
    · intro k c hc
      rw [dictGet_init] at hc
      by_cases hk : k ∈ (DigitalTwin.init panels).ids_ordered
      · rw [if_pos hk] at hc
        have : (0, 0, 0) = c := by simpa using hc
        subst this
        norm_num [chOk]
      · rw [if_neg hk] at hc; exact absurd hc (by simp)
  · intro tw pid s tw' hinv h
    unfold DigitalTwin.set_hex at h
    cases hx : _hex_to_rgb s with
    | ok rgb => rw [hx] at h; exact hsc tw pid rgb tw' hinv h
    | error e => rw [hx] at h; exact absurd h (by simp)
  · intro tw rgb tw' hinv h
    unfold DigitalTwin.set_all_colors at h
    cases hv : _validate_rgb rgb with
    | ok v =>
        rw [hv] at h
        simp only [Except.ok.injEq] at h
        subst h
        obtain ⟨hkeys, hvals⟩ := hinv
        obtain ⟨hveq, hvok⟩ := validate_rgb_ok_inv rgb v hv
        refine ⟨⟨fun k => ?_, fun k c hc => ?_⟩, rfl⟩
        · show (dictGet (tw.ids_ordered.foldl _ tw.colors) k).isSome ↔ _
          rw [dictGet_foldl_const]
          by_cases hk : k ∈ tw.ids_ordered <;> simp [hk, hkeys k]
        · rw [show ({ tw with
              colors := tw.ids_ordered.foldl (fun d pid => dictInsert d pid v) tw.colors} :
                DigitalTwin).colors =
              tw.ids_ordered.foldl (fun d pid => dictInsert d pid v) tw.colors from rfl,
            dictGet_foldl_const] at hc
          by_cases hk : k ∈ tw.ids_ordered
          · rw [if_pos hk] at hc
            have : v = c := by simpa using hc
            subst this
            exact hvok
          · rw [if_neg hk] at hc
            exact hvals k c hc
    | error e => rw [hv] at h; exact absurd h (by simp)

/-- C4 witness: the twin of a two-panel layout still satisfies the colour
invariant after a concrete `set_color`. -/
theorem twin_colors_invariant_witness :
    ColorsInv (⟨[1, 2], [(1, (7, 8, 9)), (2, (0, 0, 0))]⟩ : DigitalTwin) :=
  ((twin_colors_invariant [⟨1, 0, 0⟩, ⟨2, 1, 0⟩]).2.1
    (DigitalTwin.init [⟨1, 0, 0⟩, ⟨2, 1, 0⟩]) 1 (7, 8, 9)
    ⟨[1, 2], [(1, (7, 8, 9)), (2, (0, 0, 0))]⟩
    (twin_colors_invariant [⟨1, 0, 0⟩, ⟨2, 1, 0⟩]).1 rfl).1

/-- C6: for a known panel id and a triple accepted by `_validate_rgb`,
`set_color` succeeds, a subsequent `get_color` returns the validated
triple, every other panel's colour and the id ordering are unchanged; for
an unknown id it raises `ValueError` (returning only the error, i.e. the
map is untouched). -/
theorem set_color_frame (tw : DigitalTwin) (p : Int) (rgb : RGB) :
    (∀ v : RGB, p ∈ tw.ids_ordered → _validate_rgb rgb = .ok v →
      tw.set_color p rgb = .ok { tw with colors := dictInsert tw.colors p v } ∧
      ({ tw with colors := dictInsert tw.colors p v } : DigitalTwin).get_color p
        = .ok v ∧
      (∀ q : Int, q ≠ p →
        ({ tw with colors := dictInsert tw.colors p v } : DigitalTwin).get_color q
          = tw.get_color q) ∧
      ({ tw with colors := dictInsert tw.colors p v } : DigitalTwin).ids_ordered
        = tw.ids_ordered) ∧
    (¬ p ∈ tw.ids_ordered →
      tw.set_color p rgb = .error ("ValueError: panel id unknown: " ++ toString p)) := by
  constructor
  · intro v hmem hv
    refine ⟨?_, ?_, ?_, rfl⟩
    · unfold DigitalTwin.set_color
      rw [if_pos hmem, hv]
    · unfold DigitalTwin.get_color
      show (match dictGet (dictInsert tw.colors p v) p with
        | some c => Except.ok c | none => Except.error "KeyError") = _
      rw [dictGet_dictInsert_self]
    · intro q hq
      unfold DigitalTwin.get_color
      show (match dictGet (dictInsert tw.colors p v) q with
        | some c => Except.ok c | none => Except.error "KeyError") = _
      rw [dictGet_dictInsert_ne _ _ _ _ hq]
  · intro hmem
    unfold DigitalTwin.set_color
    rw [if_neg hmem]

/-- C6 witness: `set_color` on a known id stores the triple, and on an
unknown id raises. -/
theorem set_color_frame_witness :
    (⟨[1, 2], [(1, (0, 0, 0)), (2, (0, 0, 0))]⟩ : DigitalTwin).set_color 1 (9, 9, 9)
      = .ok ⟨[1, 2], [(1, (9, 9, 9)), (2, (0, 0, 0))]⟩ ∧
    (⟨[1, 2], [(1, (0, 0, 0)), (2, (0, 0, 0))]⟩ : DigitalTwin).set_color 5 (1, 2, 3)
      = .error ("ValueError: panel id unknown: " ++ toString (5 : Int)) :=
  ⟨(set_color_frame ⟨[1, 2], [(1, (0, 0, 0)), (2, (0, 0, 0))]⟩ 1 (9, 9, 9)).1
      (9, 9, 9) (by decide) rfl |>.1,
   (set_color_frame ⟨[1, 2], [(1, (0, 0, 0)), (2, (0, 0, 0))]⟩ 5 (1, 2, 3)).2
      (by decide)⟩

/-- C8: on a twin whose id list is duplicate-free (as any twin built from a
well-formed device layout is), `sync` with an `only` containing an unknown
id raises `ValueError` — the error return means no device write is issued —
and otherwise the selected ids form a sublist of the construction order with
exactly one occurrence per id of `only`; moreover `sync` depends on `only`
only through membership, so any reordering or duplication of `only` yields
the identical payload. -/
theorem sync_only_subset (tw : DigitalTwin) (hnd : tw.ids_ordered.Nodup) :
    (∀ (o : List Int) (t : Int) (cmd : String) (b : Option Int),
      (cmd = "display" ∨ cmd = "displayTemp") → (∃ x ∈ o, ¬ x ∈ tw.ids_ordered) →
      tw.sync t cmd (some o) b = .error "ValueError: unknown panel ids") ∧
    (∀ o : List Int, (∀ x ∈ o, x ∈ tw.ids_ordered) →
      ∃ ids : List Int, tw.syncIds (some o) = .ok ids ∧
        ids.Sublist tw.ids_ordered ∧
        (∀ p, p ∈ o → ids.count p = 1) ∧
        (∀ p, ¬ p ∈ o → ids.count p = 0)) ∧
    (∀ (o o' : List Int) (t : Int) (cmd : String) (b : Option Int),
      (∀ x : Int, x ∈ o ↔ x ∈ o') →
      tw.sync t cmd (some o) b = tw.sync t cmd (some o') b) := by
  refine ⟨?_, ?_, ?_⟩
  · intro o t cmd b hcmd hunk
    have hc : ¬ (cmd ≠ "display" ∧ cmd ≠ "displayTemp") := by
      rcases hcmd with h | h <;> simp [h]
    unfold DigitalTwin.sync
    rw [if_neg hc, syncIds_some_unknown tw o hunk]
    rfl
  · intro o hok
    refine ⟨tw.ids_ordered.filter (fun pid => pid ∈ o),
      syncIds_some_known tw o hok, List.filter_sublist _, ?_, ?_⟩
    · intro p hp
      rw [List.count_filter (by simpa using hp)]
      exact List.count_eq_one_of_mem hnd (hok p hp)
    · intro p hp
      rw [List.count_eq_zero]
      intro hmem
      exact hp (by simpa using (List.mem_filter.mp hmem).2)
  · intro o o' t cmd b hoo
    have hids : tw.syncIds (some o) = tw.syncIds (some o') := by
      by_cases hunk : ∃ x ∈ o, ¬ x ∈ tw.ids_ordered
      · obtain ⟨x, hx, hnx⟩ := hunk
        rw [syncIds_some_unknown tw o ⟨x, hx, hnx⟩,
          syncIds_some_unknown tw o' ⟨x, (hoo x).mp hx, hnx⟩]
      · push_neg at hunk
        rw [syncIds_some_known tw o hunk,
          syncIds_some_known tw o' (fun x hx => hunk x ((hoo x).mpr hx))]
        have hfil : tw.ids_ordered.filter (fun pid => pid ∈ o)
            = tw.ids_ordered.filter (fun pid => pid ∈ o') := by
          apply List.filter_congr
          intro x _
          simpa using hoo x
        rw [hfil]
    unfold DigitalTwin.sync
    rw [hids]

/-- C8 witness: `only = [2, 1, 1]` and `only = [1, 2]` select the same ids
in construction order, and an unknown id raises. -/
theorem sync_only_subset_witness :
    ((⟨[1, 2, 3], [(1, (0, 0, 0)), (2, (0, 0, 0)), (3, (0, 0, 0))]⟩ : DigitalTwin).sync
        10 "display" (some [2, 1, 1]) none =
      (⟨[1, 2, 3], [(1, (0, 0, 0)), (2, (0, 0, 0)), (3, (0, 0, 0))]⟩ : DigitalTwin).sync
        10 "display" (some [1, 2]) none) ∧
    (⟨[1, 2, 3], [(1, (0, 0, 0)), (2, (0, 0, 0)), (3, (0, 0, 0))]⟩ : DigitalTwin).sync
        10 "display" (some [9]) none = .error "ValueError: unknown panel ids" :=
  ⟨(sync_only_subset ⟨[1, 2, 3], [(1, (0, 0, 0)), (2, (0, 0, 0)), (3, (0, 0, 0))]⟩
      (by decide)).2.2 [2, 1, 1] [1, 2] 10 "display" none
      (fun x => by simp only [List.mem_cons, List.not_mem_nil, or_false]; omega),
   (sync_only_subset ⟨[1, 2, 3], [(1, (0, 0, 0)), (2, (0, 0, 0)), (3, (0, 0, 0))]⟩
      (by decide)).1 [9] 10 "display" none (Or.inl rfl) ⟨9, by decide, by decide⟩⟩

/-- C3 (amended): every run of `apply_temp` first reads the selected effect,
writes only `displayTemp` payloads (the ones produced by `sync`), sleeps
`max 0 duration` on success, and — whenever the prior effect name was read
successfully AND is non-empty (Python truthiness of `if prev:`) — ends by
attempting `select_effect`, including when the sync raises; a sync error is
propagated with no device write, a failed initial read suppresses
restoration, and the outcome is independent of whether the restoring
`select_effect` itself succeeds (its failure is swallowed). -/
theorem apply_temp_workflow (tw : DigitalTwin) (t d : Int)
    (only : Option (List Int)) (b : Option Int) (g : Except String String)
    (w sel : Bool) :
    ((tw.apply_temp t d only b ⟨g, w, sel⟩).1.head? = some Action.getSelected) ∧
    (∀ name : String, g = .ok name → name ≠ "" →
      (tw.apply_temp t d only b ⟨g, w, sel⟩).1.getLast?
        = some (Action.selectEffect name)) ∧
    (∀ e : String, g = .error e →
      ∀ n : String,
        ¬ Action.selectEffect n ∈ (tw.apply_temp t d only b ⟨g, w, sel⟩).1) ∧
    (∀ p : Payload,
      Action.writeEffect p ∈ (tw.apply_temp t d only b ⟨g, w, sel⟩).1 →
      p.command = "displayTemp" ∧ tw.sync t "displayTemp" only b = .ok p) ∧
    (∀ e : String, tw.sync t "displayTemp" only b = .error e →
      (tw.apply_temp t d only b ⟨g, w, sel⟩).2 = .error e ∧
      ∀ p : Payload,
        ¬ Action.writeEffect p ∈ (tw.apply_temp t d only b ⟨g, w, sel⟩).1) ∧
    (∀ (name : String) (p : Payload), g = .ok name → name ≠ "" →
      tw.sync t "displayTemp" only b = .ok p → w = true →
      tw.apply_temp t d only b ⟨g, w, sel⟩ =
        ([Action.getSelected, Action.writeEffect p, Action.sleep (max 0 d),
          Action.selectEffect name], .ok ())) ∧
    (tw.apply_temp t d only b ⟨g, w, true⟩ = tw.apply_temp t d only b ⟨g, w, false⟩) := by
  refine ⟨rfl, ?_, ?_, ?_, ?_, ?_, rfl⟩
  · intro name hg hne
    subst hg
    rw [apply_temp_eq]
    simp only [if_pos hne]
    rw [List.getLast?_concat]
  · intro e hg n
    subst hg
    rw [apply_temp_eq]
    cases hs : tw.sync t "displayTemp" only b <;> cases w <;> simp
  · intro p hp
    rw [apply_temp_eq] at hp
    cases hs : tw.sync t "displayTemp" only b with
    | error e =>
        rw [hs] at hp
        exfalso
        cases hg' : g with
        | ok name =>
            rw [hg'] at hp
            by_cases hname : name = "" <;> simp [hname] at hp
        | error e' => rw [hg'] at hp; simp at hp
    | ok pl =>
        rw [hs] at hp
        have hppl : p = pl := by
          cases hg' : g with
          | ok name =>
              rw [hg'] at hp
              by_cases hname : name = "" <;> cases w <;>
                simp [hname] at hp <;> tauto
          | error e' =>
              rw [hg'] at hp
              cases w <;> simp at hp <;> tauto
        subst hppl
        exact ⟨sync_ok_command tw t "displayTemp" only b p hs, rfl⟩
  · intro e hs
    rw [apply_temp_eq, hs]
    refine ⟨rfl, ?_⟩
    intro p
    cases hg' : g with
    | ok name =>
        by_cases hname : name = "" <;> simp [hname]
    | error e' => simp
  · intro name p hg hne hs hw
    subst hg hw
    rw [apply_temp_eq, hs]
    simp [hne]

/-- C3 counterexample to the claim as stated: when the selected-effect read
succeeds with the empty effect name, `if prev:` is falsy and `apply_temp`
does NOT attempt restoration, even though the read succeeded — the full
trace holds no `selectEffect` action. -/
theorem apply_temp_empty_name_counterexample :
    ((DigitalTwin.init [⟨10, 0, 0⟩]).apply_temp 10 10 none none
        ⟨.ok "", true, true⟩).1 =
      [Action.getSelected,
       Action.writeEffect ⟨"displayTemp", "1.0", "static", "1 10 1 0 0 0 0 10", [], false⟩,
       Action.sleep 10] ∧
    ¬ Action.selectEffect "" ∈
      ((DigitalTwin.init [⟨10, 0, 0⟩]).apply_temp 10 10 none none
        ⟨.ok "", true, true⟩).1 := by
  constructor
  · rfl
  · decide

/-- C3 witness: on a one-panel twin with a successful non-empty read, the
trace ends with the restoring `selectEffect`. -/
theorem apply_temp_workflow_witness :
    ((DigitalTwin.init [⟨10, 0, 0⟩]).apply_temp 10 10 none none
        ⟨.ok "Snowfall", true, true⟩).1.getLast?
      = some (Action.selectEffect "Snowfall") :=
  (apply_temp_workflow (DigitalTwin.init [⟨10, 0, 0⟩]) 10 10 none none
    (.ok "Snowfall") true true).2.1 "Snowfall" rfl (by decide)

theorem hex_not_space (c : Char) (h : isHexDigit c = true) :
    isPySpace c = false := by
  by_cases h1 : c = ' '
  · subst h1; exact absurd h (by decide)
  by_cases h2 : c = '\t'
  · subst h2; exact absurd h (by decide)
  by_cases h3 : c = '\n'
  · subst h3; exact absurd h (by decide)
  by_cases h4 : c = '\x0b'
  · subst h4; exact absurd h (by decide)
  by_cases h5 : c = '\x0c'
  · subst h5; exact absurd h (by decide)
  by_cases h6 : c = '\r'
  · subst h6; exact absurd h (by decide)
  simp [isPySpace, h1, h2, h3, h4, h5, h6]

theorem hex_ne_hash (c : Char) (h : isHexDigit c = true) : ¬ c = '#' := by
  intro hc
  subst hc
  exact absurd h (by decide)

theorem pyStrip_six_hex (a b c d e f : Char) (ha : isPySpace a = false)
    (hf : isPySpace f = false) :
    pyStrip [a, b, c, d, e, f] = [a, b, c, d, e, f] := by
  simp [pyStrip, List.dropWhile_cons, ha, hf]

/-- C9 (amended): `set_hex` delegates exactly the `_hex_to_rgb` result to
`set_color`; `_hex_to_rgb` raises on the empty string and on any string
whose stripped, `#`-less form is not exactly six characters, and parses six
hex digits (with or without the optional leading `#`) to the three byte
values — but, per the counterexample, it strips surrounding whitespace
first and tolerates slices such as `+A` that CPython's `int(·, 16)`
accepts, rather than rejecting every non-hexadecimal character. -/
theorem set_hex_parse :
    (∀ (tw : DigitalTwin) (p : Int) (s : String) (rgb : RGB),
      _hex_to_rgb s = .ok rgb → tw.set_hex p s = tw.set_color p rgb) ∧
    (∀ (tw : DigitalTwin) (p : Int) (s e : String),
      _hex_to_rgb s = .error e → tw.set_hex p s = .error e) ∧
    (_hex_to_rgb "" = .error "ValueError: hex string required") ∧
    (∀ a b c d e f : Char, isHexDigit a = true → isHexDigit b = true →
      isHexDigit c = true → isHexDigit d = true → isHexDigit e = true →
      isHexDigit f = true →
      _hex_to_rgb (String.mk [a, b, c, d, e, f]) =
        .ok (16 * hexVal a + hexVal b, 16 * hexVal c + hexVal d,
             16 * hexVal e + hexVal f) ∧
      _hex_to_rgb (String.mk ['#', a, b, c, d, e, f]) =
        .ok (16 * hexVal a + hexVal b, 16 * hexVal c + hexVal d,
             16 * hexVal e + hexVal f)) ∧
    (∀ s : String, ¬ s = "" → (dropHash (pyStrip s.toList)).length ≠ 6 →
      _hex_to_rgb s = .error "ValueError: hex must be #RRGGBB") := by
  refine ⟨?_, ?_, rfl, ?_, ?_⟩
  · intro tw p s rgb h
    unfold DigitalTwin.set_hex
    rw [h]
  · intro tw p s e h
    unfold DigitalTwin.set_hex
    rw [h]
  · intro a b c d e f ha hb hc hd he hf
    have ha' := hex_not_space a ha
    have hf' := hex_not_space f hf
    have hstrip := pyStrip_six_hex a b c d e f ha' hf'
    have hpair : ∀ x y : Char, isHexDigit x = true → isHexDigit y = true →
        pyInt16Pair x y = .ok (16 * hexVal x + hexVal y) := by
      intro x y hx hy
      unfold pyInt16Pair
      rw [if_pos ⟨hx, hy⟩]
    have hdropa : dropHash [a, b, c, d, e, f] = [a, b, c, d, e, f] := by
      simp [dropHash, hex_ne_hash a ha]
    constructor
    · unfold _hex_to_rgb
      rw [show (String.mk [a, b, c, d, e, f]).toList = [a, b, c, d, e, f] from rfl]
      rw [show ([a, b, c, d, e, f] : List Char).isEmpty = false from rfl]
      simp only [Bool.false_eq_true, if_false, hstrip, hdropa,
        hpair a b ha hb, hpair c d hc hd, hpair e f he hf,
        Bind.bind, Except.bind, Pure.pure, Except.pure]
    · unfold _hex_to_rgb
      rw [show (String.mk ['#', a, b, c, d, e, f]).toList
        = '#' :: [a, b, c, d, e, f] from rfl]
      rw [show ('#' :: [a, b, c, d, e, f] : List Char).isEmpty = false from rfl]
      have hh : isPySpace '#' = false := rfl
      have hstrip' : pyStrip ('#' :: [a, b, c, d, e, f])
          = '#' :: [a, b, c, d, e, f] := by
        simp [pyStrip, List.dropWhile_cons, hh, hf']
      have hdroph : dropHash ('#' :: [a, b, c, d, e, f]) = [a, b, c, d, e, f] := by
        simp [dropHash]
      simp only [Bool.false_eq_true, if_false, hstrip', hdroph,
        hpair a b ha hb, hpair c d hc hd, hpair e f he hf,
        Bind.bind, Except.bind, Pure.pure, Except.pure]
  · intro s hs hlen
    have hne : s.toList.isEmpty = false := by
      cases s with
      | mk data =>
          cases data with
          | nil => exact absurd rfl hs
          | cons a l => rfl
    unfold _hex_to_rgb
    rw [hne]
    simp only [Bool.false_eq_true, if_false]
    rcases h6 : dropHash (pyStrip s.toList) with
      _ | ⟨a, _ | ⟨b, _ | ⟨c, _ | ⟨d, _ | ⟨e1, _ | ⟨f1, _ | ⟨g1, rest⟩⟩⟩⟩⟩⟩⟩ <;>
      first
        | rfl
        | (rw [h6] at hlen; simp at hlen)

/-- C9 counterexample to the claim as stated: strings with non-hexadecimal
characters need not raise — `"+A+B+C"` is accepted (CPython's `int(·, 16)`
tolerates a sign next to a single hex digit) and stores `(10, 11, 12)`, and
surrounding whitespace is stripped so `" FF0000 "` also parses. -/
theorem set_hex_plus_sign_counterexample :
    (DigitalTwin.init [⟨1, 0, 0⟩]).set_hex 1 "+A+B+C"
      = .ok ⟨[1], [(1, (10, 11, 12))]⟩ ∧
    _hex_to_rgb " FF0000 " = .ok (255, 0, 0) := by
  constructor
  · rfl
  · rfl

/-- C9 witness: a well-formed hex string is parsed and delegated to
`set_color`. -/
theorem set_hex_parse_witness :
    (DigitalTwin.init [⟨1, 0, 0⟩]).set_hex 1 "#FF0080"
      = (DigitalTwin.init [⟨1, 0, 0⟩]).set_color 1 (255, 0, 128) :=
  set_hex_parse.1 (DigitalTwin.init [⟨1, 0, 0⟩]) 1 "#FF0080" (255, 0, 128) rfl

end Aionanoleaf
